/-
Verification of the panops-data-registry acquisition scripts: a shallow
embedding of the job-polling loops, the object-storage download helpers,
the multipart-raster merge, the export builder and the plain-HTTP
downloader, with theorems settling the spec's testable properties.
-/
import Mathlib

set_option maxHeartbeats 1000000

namespace Panops

/-! ## String helpers (models of `pathlib.Path` accessors and `str` methods) -/

/-- Model of `str.split(sep)[0]`: the characters of `l` before the first
occurrence of the separator `sep` (all of `l` when `sep` never occurs). -/
def splitHeadChars (sep : List Char) : List Char → List Char
  | [] => []
  | c :: rest =>
    if sep.isPrefixOf (c :: rest) then [] else c :: splitHeadChars sep rest

/-- Model of `str.split(sep)[0]` on strings. -/
def splitHead (s sep : String) : String := ⟨splitHeadChars sep.data s.data⟩

/-- Does `sub` occur as a contiguous sublist of `l`? -/
def infixChars (sub : List Char) : List Char → Bool
  | [] => sub.isPrefixOf []
  | c :: rest => sub.isPrefixOf (c :: rest) || infixChars sub rest

/-- Model of the glob pattern `*sub*`: does `s` contain `sub` as a substring? -/
def strContains (s sub : String) : Bool := infixChars sub.data s.data

/-- Model of the glob pattern `pfx*` and of an object-storage name-prefix
listing filter: does `s` start with `pfx`? -/
def strStartsWith (pfx s : String) : Bool := pfx.data.isPrefixOf s.data

/-- Lexicographic comparison of character lists by code point, the order
`sorted` uses on strings. -/
def strLeChars : List Char → List Char → Bool
  | [], _ => true
  | _ :: _, [] => false
  | a :: as, b :: bs => if a < b then true else if b < a then false else strLeChars as bs

/-- `a <= b` for strings, as `sorted` compares them. -/
def strLe (a b : String) : Bool := strLeChars a.data b.data

/-- Model of `pathlib.Path(s).name`: the part of `s` after the last `/`. -/
def pathName (s : String) : String := ⟨(s.data.reverse.takeWhile (· ≠ '/')).reverse⟩

/-- Model of `pathlib.Path(s).stem` for plain file names: the name with its
last dot-extension removed; a name with no dot, or only a leading dot, is
its own stem. -/
def pathStem (s : String) : String :=
  match s.data.reverse.dropWhile (· ≠ '.') with
  | [] => s
  | _ :: rest => if rest.isEmpty then s else ⟨rest.reverse⟩

/-! ## Earth Engine task model (`src/utils/gee_utils.py`)

An `ee.batch.Task` as seen by `download_when_complete`: its status dict
carries a `state` string (compared against `"COMPLETED"` and `"FAILED"`),
a `description` (used as the download key) and an `error_message`.
Statuses of the claims under study are terminal or steadily non-terminal,
so a task's polled state is modelled as constant across polls. -/

structure EETask where
  id : String
  description : String
  state : String
  error_message : String
deriving DecidableEq, Repr

/-- Observable effects of one run of `download_when_complete`:
a call to `download_blob_if_exists` keyed by a task description, or the
`log.error` emitted for a FAILED task (referencing the task id). -/
inductive GeeEvent
  | download (key : String)
  | taskFailed (id msg : String)
deriving DecidableEq, Repr

/-- One pass of the `for task in tasks.copy():` loop of
`download_when_complete`: a COMPLETED task triggers
`download_blob_if_exists(status["description"], ...)` and is removed, a
FAILED task triggers `log.error("Task %s failed: %s", task.id, ...)` and
is removed, any other task is kept. -/
def pollPass : List EETask → List EETask × List GeeEvent
  | [] => ([], [])
  | t :: rest =>
    let r := pollPass rest
    if t.state = "COMPLETED" then
      (r.1, .download t.description :: r.2)
    else if t.state = "FAILED" then
      (r.1, .taskFailed t.id t.error_message :: r.2)
    else
      (t :: r.1, r.2)

/-- The `while tasks:` loop of `download_when_complete`, fuelled by the
number of polling rounds executed (the real loop sleeps 60 seconds between
rounds and has no other exit: it runs until the task list is empty).
Returns the remaining task list and the events of the run. -/
def download_when_complete : Nat → List EETask → List EETask × List GeeEvent
  | 0, tasks => (tasks, [])
  | fuel + 1, tasks =>
    if tasks.isEmpty then (tasks, [])
    else
      let r := pollPass tasks
      let rec' := download_when_complete fuel r.1
      (rec'.1, r.2 ++ rec'.2)

/-- A task is non-terminal for the loop when its state is neither
COMPLETED nor FAILED (e.g. READY or RUNNING). -/
def nonTerminal (t : EETask) : Bool :=
  ¬ (t.state = "COMPLETED" ∨ t.state = "FAILED")

/-- `download_when_complete` never raises a timeout for this task list:
every polling round leaves the list unchanged and emits nothing. -/
def neverResolves (tasks : List EETask) : Prop :=
  ∀ fuel, download_when_complete fuel tasks = (tasks, [])

/-- The event a single task contributes in the poll round that retires
it: COMPLETED yields the download call, FAILED yields the error line,
any other state yields nothing. -/
def eventOf (t : EETask) : Option GeeEvent :=
  if t.state = "COMPLETED" then some (.download t.description)
  else if t.state = "FAILED" then some (.taskFailed t.id t.error_message)
  else none

/-- A task the remote platform leaves in RUNNING state forever. -/
def stuckTask : EETask :=
  { id := "task-1", description := "canopy_height", state := "RUNNING",
    error_message := "" }

/-! ## GBIF waiter (`src/gbif/get_gbif_data.py`,
`check_download_job_and_download_file`)

`check_download_status key` is a network poll; it is modelled as a
function from the poll index to the returned status string.  `time.time()
- start_time` at the poll of index `k` is modelled as `elapsedAt k`
seconds.  `max_hours` is in hours; the loop compares the elapsed seconds
against `max_hours * 60 * 60`. -/

/-- Observable effects of the GBIF waiter: the successful
`download_request_to_disk` call, or the `output_path.unlink()` executed
in the timeout branch. -/
inductive GbifEvent
  | downloadToDisk (key : String)
  | unlinkOutputPath
deriving DecidableEq, Repr

/-- Outcome of the GBIF waiter run. -/
inductive GbifOutcome
  /-- Loop broke after a successful download. -/
  | done
  /-- `GbifDownloadFailure` raised with the given message (FAILED branch). -/
  | failureRaised (msg : String)
  /-- `GbifDownloadFailure` raised with the given message after the
  timeout check of poll index `k` fired. -/
  | timeoutRaised (k : Nat) (msg : String)
  /-- Fuel exhausted while the loop was still polling. -/
  | stillPolling
deriving DecidableEq, Repr

/-- The `while True:` loop of `check_download_job_and_download_file`,
fuelled by the number of polls, starting at poll index `k`.  In order:
a SUCCEEDED status downloads and breaks; a FAILED status raises
`GbifDownloadFailure(f"Download job {key} failed.")`; then, if the
elapsed seconds exceed `max_hours * 60 * 60`, the loop unlinks
`output_path` and raises the timeout failure; otherwise it sleeps 60
seconds and polls again. -/
def gbifWaitLoop (key : String) (statusAt : Nat → String) (elapsedAt : Nat → Nat)
    (maxHours : Nat) : Nat → Nat → List GbifEvent × GbifOutcome
  | 0, _ => ([], .stillPolling)
  | fuel + 1, k =>
    if statusAt k = "SUCCEEDED" then
      ([.downloadToDisk key], .done)
    else if statusAt k = "FAILED" then
      ([], .failureRaised ("Download job " ++ key ++ " failed."))
    else if elapsedAt k > maxHours * 60 * 60 then
      ([.unlinkOutputPath],
        .timeoutRaised k ("Download job " ++ key ++ " did not complete within"
          ++ toString maxHours ++ ". Aborting"))
    else
      gbifWaitLoop key statusAt elapsedAt maxHours fuel (k + 1)

/-- `check_download_job_and_download_file`, started at poll index 0. -/
def check_download_job_and_download_file (key : String) (statusAt : Nat → String)
    (elapsedAt : Nat → Nat) (maxHours : Nat) (fuel : Nat) :
    List GbifEvent × GbifOutcome :=
  gbifWaitLoop key statusAt elapsedAt maxHours fuel 0

/-! ## Object storage download helpers (`src/utils/gcs_utils.py`)

A bucket is a list of objects, each a name paired with its content
(a list of bytes).  The local output directory is likewise a list of
file names paired with contents. -/

/-- Blob contents: a sequence of bytes. -/
abbrev Bytes := List Nat

/-- The local output directory: file name ↦ content association list. -/
abbrev LocalFS := List (String × Bytes)

/-- Does a file of this name exist locally? (`Path.exists()`) -/
def fsHas (fs : LocalFS) (name : String) : Bool := fs.any (fun e => e.1 = name)

/-- `Path.unlink()`: drop the file of this name. -/
def fsUnlink (fs : LocalFS) (name : String) : LocalFS :=
  fs.filter (fun e => e.1 ≠ name)

/-- Write a file, replacing any existing file of the same name. -/
def fsWrite (fs : LocalFS) (name : String) (content : Bytes) : LocalFS :=
  fsUnlink fs name ++ [(name, content)]

/-- Look up a local file's content. -/
def fsGet (fs : LocalFS) (name : String) : Option Bytes :=
  (fs.find? (fun e => e.1 = name)).map (·.2)

/-- A bucket: object name ↦ content. -/
structure Bucket where
  objects : List (String × Bytes)
deriving DecidableEq, Repr

/-- `bucket.blob(name).exists()`. -/
def Bucket.blobExists (b : Bucket) (name : String) : Bool :=
  b.objects.any (fun o => o.1 = name)

/-- `bucket.list_blobs(prefix=pfx)`: the objects whose names start with `pfx`. -/
def Bucket.listBlobs (b : Bucket) (pfx : String) : List (String × Bytes) :=
  b.objects.filter (fun o => strStartsWith pfx o.1)

/-- Observable effects of the download helpers: an object transfer from
the bucket (`blob.download_to_filename`), the overwrite warning, the
skip-info line, the split-parts warning, or the not-found error line. -/
inductive GcsEvent
  | transfer (name : String)
  | warnOverwrite (name : String)
  | infoSkip (name : String)
  | warnCheckParts (name : String)
  | errNotFound (name : String)
deriving DecidableEq, Repr

/-- `download_blob`: saves the blob under `Path(blob.name).name`; when a
local file of that name exists it warns and unlinks it first, then
transfers the blob's bytes. -/
def download_blob (blob : String × Bytes) (fs : LocalFS) : LocalFS × List GcsEvent :=
  let blobName := pathName blob.1
  if fsHas fs blobName then
    (fsWrite (fsUnlink fs blobName) blobName blob.2,
      [.warnOverwrite blobName, .transfer blobName])
  else
    (fsWrite fs blobName blob.2, [.transfer blobName])

/-- `download_blobs`: download each blob of the list in order. -/
def download_blobs (blobs : List (String × Bytes)) (fs : LocalFS) :
    LocalFS × List GcsEvent :=
  match blobs with
  | [] => (fs, [])
  | b :: rest =>
    let r := download_blob b fs
    let r' := download_blobs rest r.1
    (r'.1, r.2 ++ r'.2)

/-- `download_blob_if_exists`: look up `file_stem + ".tif"` in the bucket;
when present, download it unless the local file already exists and
`overwrite` is off; when absent, list the objects whose names share
`Path(file_name).stem` as a prefix and download each; when that listing
is also empty, log an error and return with no write.  The function
always returns (it raises nothing). -/
def download_blob_if_exists (file_stem : String) (bucket : Bucket)
    (fs : LocalFS) (overwrite : Bool := true) : LocalFS × List GcsEvent :=
  let file_name := file_stem ++ ".tif"
  if bucket.blobExists file_name then
    if ¬ fsHas fs file_name ∨ overwrite then
      match bucket.objects.find? (fun o => o.1 = file_name) with
      | some blob => download_blob blob fs
      | none => (fs, [])
    else
      (fs, [.infoSkip file_name])
  else
    let blobs := bucket.listBlobs (pathStem file_name)
    if blobs.isEmpty then
      (fs, [.warnCheckParts file_name, .errNotFound file_name])
    else
      let r := download_blobs blobs fs
      (r.1, .warnCheckParts file_name :: r.2)

/-! ## Multipart merge (`src/vodca/get_vodca_data.py`)

The output directory is modelled by the list of file names it contains
(raster contents play no role in the name-level round-trip properties).
`out_dir.glob(pat)` is name filtering, `sorted` is `List.insertionSort`. -/

/-- `check_multipart_files`: glob `*00000*`; when matches exist, return
the deduplicated list of `file.stem.split("00000")[0]` prefixes,
otherwise `None`. -/
def check_multipart_files (dir : List String) : Option (List String) :=
  let files := dir.filter (fun f => strContains f "00000")
  if files.isEmpty then none
  else some ((files.map (fun f => splitHead (pathStem f) "00000")).dedup)

/-- The call to `merge_rasters(files, out_file)` made for one prefix:
its input list and its output file. -/
inductive MergeEvent
  | mergeRasters (inputs : List String) (out : String)
deriving DecidableEq, Repr

/-- Writing a file into the directory (`merge_rasters` writes `out_file`,
overwriting in place if a file of that name exists). -/
def dirWrite (dir : List String) (name : String) : List String :=
  if name ∈ dir then dir else dir ++ [name]

/-- The body of `merge_multipart_files` for a single prefix: glob
`{prefix}*` into a sorted list `files`, write the merged `{prefix}.tif`,
then unlink every file of `files`. -/
def mergeOnePrefix (dir : List String) (pfx : String) :
    List String × List MergeEvent :=
  let files := List.insertionSort (fun a b => strLe a b = true)
    (dir.filter (fun f => strStartsWith pfx f))
  let out_file := pfx ++ ".tif"
  let dir1 := dirWrite dir out_file
  let dir2 := files.foldl (fun acc f => acc.erase f) dir1
  (dir2, [.mergeRasters files out_file])

/-- `merge_multipart_files`: run the merge for each prefix in turn. -/
def merge_multipart_files (dir : List String) (pfxs : List String) :
    List String × List MergeEvent :=
  match pfxs with
  | [] => (dir, [])
  | p :: rest =>
    let r := mergeOnePrefix dir p
    let r' := merge_multipart_files r.1 rest
    (r'.1, r.2 ++ r'.2)

/-! ## Export builder (`src/utils/gee_utils.py`: `ExportParams`,
`_export_image`, `export_collection`) -/

/-- `ExportParams` of `gee_utils.py` (the `gee.py` variant is identical
except that it lacks the optional `nodata` field). -/
structure ExportParams where
  crs : String := "EPSG:4326"
  scale : Nat := 1000
  target : String := "gcs"
  folder : String := "gee_exports"
  nodata : Option Int := none
deriving DecidableEq, Repr

/-- `ExportParams.__post_init__`: construction raises
`ValueError("Invalid target. Use 'gcs' or 'gdrive'.")` unless the target
is one of the two recognized destinations.  Construction is pure: no job
is submitted and no network call occurs. -/
def mkExportParams (crs : String) (scale : Nat) (target : String)
    (folder : String) (nodata : Option Int) : Except String ExportParams :=
  if target ∈ ["gcs", "gdrive"] then
    .ok { crs := crs, scale := scale, target := target, folder := folder,
          nodata := nodata }
  else
    .error "Invalid target. Use 'gcs' or 'gdrive'."

/-- An `ee.Image` as seen by the export path: its list of band names. -/
structure GEEImage where
  bands : List String
deriving DecidableEq, Repr

/-- `image.select(band)`. -/
def GEEImage.select (_img : GEEImage) (band : String) : GEEImage := ⟨[band]⟩

/-- The `ee.batch.Task` built by `_export_image` together with whether
`task.start()` was called (it is skipped under `dry_run`). -/
structure ExportTask where
  description : String
  fileNamePrefix : String
  crs : String
  scale : Nat
  folder : String
  target : String
  image : GEEImage
  started : Bool
deriving DecidableEq, Repr

/-- `_export_image`: builds the task config with `description` and
`fileNamePrefix` both equal to `filename`, routes to cloud storage or
drive by the params' target, and starts the task unless `dry_run`.
(`unmask(nodata)` does not change the band list, so the image passes
through unchanged in this name-level model.) -/
def exportImage (image : GEEImage) (filename : String) (p : ExportParams)
    (dry_run : Bool) : ExportTask :=
  { description := filename
    fileNamePrefix := filename
    crs := p.crs
    scale := p.scale
    folder := p.folder
    target := p.target
    image := image
    started := ¬ dry_run }

/-- `export_collection`: for each image of the collection, under
`flatten` export each band separately with the band name as filename;
otherwise export the whole image named after its first band. -/
def export_collection (collection : List GEEImage) (p : ExportParams)
    (flatten : Bool := false) (dry_run : Bool := false) : List ExportTask :=
  collection.foldl
    (fun tasks image =>
      if flatten then
        tasks ++ image.bands.map (fun band =>
          exportImage (image.select band) band p dry_run)
      else
        tasks ++ [exportImage image (image.bands.headD "") p dry_run])
    []

/-! ## Plain-HTTP downloader (`src/data/download_data.py`, `download_file`) -/

/-- The network: a URL either yields response bytes or the request
raises (timeout, connection error, ...). -/
abbrev Network := String → Except String Bytes

/-- `download_file`: derives the file name as `url.split("/")[-1]`
(which `pathName` computes), then `open(path, "wb")` — creating or
truncating the destination to zero bytes — and only then issues
`requests.get(url, timeout=10)` inside the `with` block; on success the
body is written, on a raised request the empty file is left behind and
the exception propagates.  (`make_dir_if_new` only touches directories
and is outside this file model.) -/
def download_file (net : Network) (url : String) (fs : LocalFS) :
    LocalFS × Except String String :=
  let filename := pathName url
  let fs1 := fsWrite fs filename []
  match net url with
  | .error e => (fs1, .error e)
  | .ok content => (fsWrite fs1 filename content, .ok filename)

/-! ## Lemmas on the Earth Engine polling loop -/

theorem pollPass_eq (tasks : List EETask) :
    pollPass tasks = (tasks.filter nonTerminal, tasks.filterMap eventOf) := by
  induction tasks with
  | nil => rfl
  | cons t rest ih =>
    by_cases hc : t.state = "COMPLETED"
    · simp [pollPass, ih, nonTerminal, eventOf, hc]
    · by_cases hf : t.state = "FAILED"
      · simp [pollPass, ih, nonTerminal, eventOf, hc, hf]
      · simp [pollPass, ih, nonTerminal, eventOf, hc, hf]

theorem pollPass_of_nonTerminal (tasks : List EETask)
    (h : ∀ t ∈ tasks, nonTerminal t) : pollPass tasks = (tasks, []) := by
  rw [pollPass_eq, Prod.mk.injEq]
  constructor
  · exact List.filter_eq_self.mpr h
  · rw [List.filterMap_eq_nil_iff]
    intro t ht
    have hnt := h t ht
    simp only [nonTerminal, decide_eq_true_eq] at hnt
    push_neg at hnt
    simp [eventOf, hnt.1, hnt.2]

theorem nonTerminal_of_mem_filter {tasks : List EETask} {t : EETask}
    (h : t ∈ tasks.filter nonTerminal) : nonTerminal t := (List.mem_filter.mp h).2

theorem download_when_complete_stuck (fuel : Nat) (tasks : List EETask)
    (h : ∀ t ∈ tasks, nonTerminal t) :
    download_when_complete fuel tasks = (tasks, []) := by
  induction fuel with
  | zero => rfl
  | succ n ih =>
    rw [download_when_complete]
    by_cases he : tasks.isEmpty
    · simp [he]
    · simp [he, pollPass_of_nonTerminal tasks h, ih]

theorem download_when_complete_eq (fuel : Nat) (tasks : List EETask)
    (hf : 1 ≤ fuel) :
    download_when_complete fuel tasks
      = (tasks.filter nonTerminal, tasks.filterMap eventOf) := by
  obtain ⟨n, rfl⟩ : ∃ n, fuel = n + 1 := ⟨fuel - 1, by omega⟩
  rw [download_when_complete]
  by_cases he : tasks.isEmpty
  · rw [List.isEmpty_iff] at he
    subst he
    simp
  · rw [pollPass_eq]
    simp [he, download_when_complete_stuck n _
      (fun t ht => (List.mem_filter.mp ht).2)]

theorem count_download_filterMap (tasks : List EETask) (d : String) :
    (tasks.filterMap eventOf).count (.download d)
      = (tasks.filter (fun u => u.state = "COMPLETED" ∧ u.description = d)).length := by
  induction tasks with
  | nil => rfl
  | cons t rest ih =>
    by_cases hc : t.state = "COMPLETED"
    · by_cases hd : t.description = d
      · simp [eventOf, hc, hd, List.count_cons, ih]
      · simp [eventOf, hc, hd, List.count_cons, ih]
    · by_cases hf : t.state = "FAILED"
      · simp [eventOf, hc, hf, List.count_cons, ih]
      · simp [eventOf, hc, hf, ih]

theorem download_mem_filterMap (tasks : List EETask) (k : String) :
    GeeEvent.download k ∈ tasks.filterMap eventOf
      ↔ ∃ u ∈ tasks, u.state = "COMPLETED" ∧ u.description = k := by
  rw [List.mem_filterMap]
  constructor
  · rintro ⟨u, hu, he⟩
    refine ⟨u, hu, ?_⟩
    by_cases hc : u.state = "COMPLETED"
    · simp only [eventOf, hc, if_true, Option.some.injEq] at he
      cases he
      exact ⟨hc, rfl⟩
    · by_cases hf : u.state = "FAILED" <;> simp [eventOf, hc, hf] at he
  · rintro ⟨u, hu, hc, hd⟩
    exact ⟨u, hu, by simp [eventOf, hc, hd]⟩

/-! ## Lemmas on the GBIF waiter -/

theorem gbifWaitLoop_timeout_sound (key : String) (statusAt : Nat → String)
    (elapsedAt : Nat → Nat) (maxHours : Nat) :
    ∀ fuel j evs k msg,
      gbifWaitLoop key statusAt elapsedAt maxHours fuel j = (evs, .timeoutRaised k msg) →
      elapsedAt k > maxHours * 60 * 60 ∧ evs = [.unlinkOutputPath] := by
  intro fuel
  induction fuel with
  | zero => intro j evs k msg h; simp [gbifWaitLoop] at h
  | succ n ih =>
    intro j evs k msg h
    rw [gbifWaitLoop] at h
    by_cases hs : statusAt j = "SUCCEEDED"
    · simp [hs] at h
    · by_cases hfail : statusAt j = "FAILED"
      · simp [hs, hfail] at h
      · by_cases hel : elapsedAt j > maxHours * 60 * 60
        · simp only [hs, hfail, hel, if_true, if_false, if_neg, Prod.mk.injEq] at h
          obtain ⟨he, ho⟩ := h
          cases ho
          exact ⟨hel, he.symm⟩
        · simp only [hs, hfail, hel, if_false, if_neg] at h
          exact ih (j + 1) evs k msg h

theorem gbifWaitLoop_timeout_fires (key : String) (statusAt : Nat → String)
    (elapsedAt : Nat → Nat) (maxHours : Nat)
    (hnt : ∀ n, statusAt n ≠ "SUCCEEDED" ∧ statusAt n ≠ "FAILED") :
    ∀ fuel j, (∃ k, j ≤ k ∧ k < j + fuel ∧ elapsedAt k > maxHours * 60 * 60) →
      ∃ k msg,
        gbifWaitLoop key statusAt elapsedAt maxHours fuel j
          = ([.unlinkOutputPath], .timeoutRaised k msg) := by
  intro fuel
  induction fuel with
  | zero => rintro j ⟨k, hk1, hk2, _⟩; omega
  | succ n ih =>
    rintro j ⟨k, hk1, hk2, hk3⟩
    rw [gbifWaitLoop]
    simp only [(hnt j).1, (hnt j).2, if_false, if_neg]
    by_cases hel : elapsedAt j > maxHours * 60 * 60
    · exact ⟨j, "Download job " ++ key ++ " did not complete within"
        ++ toString maxHours ++ ". Aborting", by simp [hel]⟩
    · have hkj : j + 1 ≤ k := by
        rcases Nat.eq_or_lt_of_le hk1 with rfl | h
        · omega
        · omega
      simp only [hel, if_false, if_neg]
      exact ih (j + 1) ⟨k, hkj, by omega, hk3⟩

/-! ## Claim theorems -/

/-- C1 counterexample.  The claim asserts that the Earth Engine variant
`download_when_complete` raises a timeout failure for a job that never
reaches a terminal state.  It does not: for a task the platform leaves in
RUNNING state forever, every number of polling rounds (each separated by
a 60-second sleep, so any wall-clock bound is eventually exceeded) leaves
the task in the active set with no failure raised, no event emitted and
no artifact deleted — the function has no timeout parameter and its only
loop exit is an empty task list. -/
theorem c1_ee_no_timeout_counterexample : neverResolves [stuckTask] := by
  intro fuel
  exact download_when_complete_stuck fuel _ (by intro t ht; simp at ht; subst ht; rfl)

/-- C1 amended: only the GBIF variant
`check_download_job_and_download_file` enforces the timeout.  (1) Whenever
it raises its timeout failure it does so at a poll whose elapsed time
strictly exceeds `max_hours` hours — never earlier — and the raise is
preceded by exactly the `output_path.unlink()` deletion.  (2) For a job
that never reaches a terminal state, once the elapsed time of some poll
within the fuel bound exceeds `max_hours` hours, the timeout failure is
raised with the deletion performed.  (3) The Earth Engine variant
`download_when_complete` has no timeout at all: a list of never-terminal
tasks is polled forever, unchanged, with nothing raised and nothing
deleted. -/
theorem c1_timeout_only_in_gbif_variant :
    (∀ (key : String) (statusAt : Nat → String) (elapsedAt : Nat → Nat)
        (maxHours fuel : Nat) (evs : List GbifEvent) (k : Nat) (msg : String),
      check_download_job_and_download_file key statusAt elapsedAt maxHours fuel
          = (evs, .timeoutRaised k msg) →
      elapsedAt k > maxHours * 60 * 60 ∧ evs = [.unlinkOutputPath])
    ∧ (∀ (key : String) (statusAt : Nat → String) (elapsedAt : Nat → Nat)
        (maxHours fuel : Nat),
      (∀ n, statusAt n ≠ "SUCCEEDED" ∧ statusAt n ≠ "FAILED") →
      (∃ k, k < fuel ∧ elapsedAt k > maxHours * 60 * 60) →
      ∃ k msg,
        check_download_job_and_download_file key statusAt elapsedAt maxHours fuel
          = ([.unlinkOutputPath], .timeoutRaised k msg))
    ∧ (∀ tasks : List EETask, (∀ t ∈ tasks, nonTerminal t) → neverResolves tasks) := by
  refine ⟨?_, ?_, ?_⟩
  · intro key statusAt elapsedAt maxHours fuel evs k msg h
    exact gbifWaitLoop_timeout_sound key statusAt elapsedAt maxHours fuel 0 evs k msg h
  · rintro key statusAt elapsedAt maxHours fuel hnt ⟨k, hk, hel⟩
    exact gbifWaitLoop_timeout_fires key statusAt elapsedAt maxHours hnt fuel 0
      ⟨k, Nat.zero_le k, by omega, hel⟩
  · intro tasks h fuel
    exact download_when_complete_stuck fuel tasks h

/-- C1 witness: a concrete run of the GBIF waiter (always RUNNING,
elapsed time 60·k seconds at poll k, `max_hours = 0`) raises the timeout
at poll 1, whose elapsed 60 seconds exceed the 0-hour bound, after the
single unlink. -/
theorem c1_timeout_only_in_gbif_variant_witness :
    (fun k => 60 * k) 1 > 0 * 60 * 60
      ∧ ([GbifEvent.unlinkOutputPath] : List GbifEvent) = [.unlinkOutputPath] :=
  c1_timeout_only_in_gbif_variant.1 "0012345-230224095556074"
    (fun _ => "RUNNING") (fun k => 60 * k) 0 2 [.unlinkOutputPath] 1
    ("Download job 0012345-230224095556074 did not complete within"
      ++ toString (0 : Nat) ++ ". Aborting") (by decide)

/-- C2: in a run of `download_when_complete` (of at least one polling
round), the download attempts keyed by a description `d` number exactly
the COMPLETED jobs whose description is `d` — one attempt per such job,
keyed by its description field — and every COMPLETED job is removed from
the active task list, so no later round can attempt it again. -/
theorem c2_completed_downloaded_once (fuel : Nat) (tasks : List EETask)
    (hf : 1 ≤ fuel) :
    (∀ d, (download_when_complete fuel tasks).2.count (.download d)
        = (tasks.filter (fun u => u.state = "COMPLETED" ∧ u.description = d)).length)
    ∧ (∀ t ∈ tasks, t.state = "COMPLETED"
        → t ∉ (download_when_complete fuel tasks).1) := by
  rw [download_when_complete_eq fuel tasks hf]
  refine ⟨fun d => count_download_filterMap tasks d, fun t _ hc hmem => ?_⟩
  have := nonTerminal_of_mem_filter hmem
  simp [nonTerminal, hc] at this

/-- C2 witness: a single COMPLETED task is downloaded exactly once under
its description key and is gone from the active set after the run. -/
theorem c2_completed_downloaded_once_witness :
    (download_when_complete 1 [⟨"T1", "soilgrids_0-5cm", "COMPLETED", ""⟩]).2.count
        (.download "soilgrids_0-5cm")
      = ([(⟨"T1", "soilgrids_0-5cm", "COMPLETED", ""⟩ : EETask)].filter
          (fun u => u.state = "COMPLETED" ∧ u.description = "soilgrids_0-5cm")).length
    ∧ (⟨"T1", "soilgrids_0-5cm", "COMPLETED", ""⟩ : EETask)
        ∉ (download_when_complete 1 [⟨"T1", "soilgrids_0-5cm", "COMPLETED", ""⟩]).1 :=
  ⟨(c2_completed_downloaded_once 1 _ (by decide)).1 "soilgrids_0-5cm",
    (c2_completed_downloaded_once 1 _ (by decide)).2 _ (by simp) rfl⟩

/-- C3: for a FAILED job in a run of `download_when_complete` (of at
least one polling round), the run reports a failure event carrying that
job's identifier, removes the job from the active set, and performs no
download for it: every download event of a run is attributable to a
COMPLETED job (an iff), and a FAILED job is never COMPLETED.  The GBIF
variant likewise: a job whose first poll returns FAILED raises
`GbifDownloadFailure` with a message referencing the job key, with no
download event. -/
theorem c3_failed_reported_not_downloaded (fuel : Nat) (tasks : List EETask)
    (t : EETask) (hf : 1 ≤ fuel) (ht : t ∈ tasks) (hs : t.state = "FAILED") :
    GeeEvent.taskFailed t.id t.error_message ∈ (download_when_complete fuel tasks).2
    ∧ t ∉ (download_when_complete fuel tasks).1
    ∧ (∀ k, GeeEvent.download k ∈ (download_when_complete fuel tasks).2
        ↔ ∃ u ∈ tasks, u.state = "COMPLETED" ∧ u.description = k)
    ∧ (∀ (key : String) (statusAt : Nat → String) (elapsedAt : Nat → Nat)
        (maxHours fuel2 : Nat), statusAt 0 = "FAILED" →
      check_download_job_and_download_file key statusAt elapsedAt maxHours (fuel2 + 1)
        = ([], .failureRaised ("Download job " ++ key ++ " failed."))) := by
  rw [download_when_complete_eq fuel tasks hf]
  refine ⟨?_, ?_, ?_, ?_⟩
  · exact List.mem_filterMap.mpr ⟨t, ht, by simp [eventOf, hs]⟩
  · intro hmem
    have := nonTerminal_of_mem_filter hmem
    simp [nonTerminal, hs] at this
  · exact fun k => download_mem_filterMap tasks k
  · intro key statusAt elapsedAt maxHours fuel2 h0
    simp [check_download_job_and_download_file, gbifWaitLoop, h0]

/-- C3 witness: a concrete FAILED task is reported under its id, removed,
not downloaded; a concrete GBIF job polling FAILED raises the failure
naming its key. -/
theorem c3_failed_reported_not_downloaded_witness :
    GeeEvent.taskFailed "T9" "Out of memory"
        ∈ (download_when_complete 1 [⟨"T9", "vodca_ku", "FAILED", "Out of memory"⟩]).2
    ∧ (⟨"T9", "vodca_ku", "FAILED", "Out of memory"⟩ : EETask)
        ∉ (download_when_complete 1 [⟨"T9", "vodca_ku", "FAILED", "Out of memory"⟩]).1
    ∧ (∀ k, GeeEvent.download k
          ∈ (download_when_complete 1 [⟨"T9", "vodca_ku", "FAILED", "Out of memory"⟩]).2
        ↔ ∃ u ∈ [(⟨"T9", "vodca_ku", "FAILED", "Out of memory"⟩ : EETask)],
            u.state = "COMPLETED" ∧ u.description = k)
    ∧ (∀ (key : String) (statusAt : Nat → String) (elapsedAt : Nat → Nat)
        (maxHours fuel2 : Nat), statusAt 0 = "FAILED" →
      check_download_job_and_download_file key statusAt elapsedAt maxHours (fuel2 + 1)
        = ([], .failureRaised ("Download job " ++ key ++ " failed."))) :=
  c3_failed_reported_not_downloaded 1 _ _ (by decide) (List.mem_singleton.mpr rfl) rfl

/-! ## Lemmas on the storage download helpers -/

theorem pathStem_append_tif (s : String) (h : s.data ≠ []) :
    pathStem (s ++ ".tif") = s := by
  unfold pathStem
  rw [String.data_append]
  show (match (s.data ++ ".tif".data).reverse.dropWhile (· ≠ '.') with
    | [] => s ++ ".tif"
    | _ :: rest => if rest.isEmpty then s ++ ".tif" else ⟨rest.reverse⟩) = s
  have hd : (s.data ++ ".tif".data).reverse.dropWhile (· ≠ '.')
      = '.' :: s.data.reverse := by
    simp [List.reverse_append, List.dropWhile]
  rw [hd]
  simp [h, List.isEmpty_iff]

theorem strStartsWith_append (pfx t : String) :
    strStartsWith pfx (pfx ++ t) = true := by
  simp [strStartsWith, String.data_append, List.isPrefixOf_iff_prefix,
    List.prefix_append]

theorem transfer_mem_download_blobs (blobs : List (String × Bytes)) :
    ∀ fs b, b ∈ blobs →
      GcsEvent.transfer (pathName b.1) ∈ (download_blobs blobs fs).2 := by
  induction blobs with
  | nil => intro fs b hb; simp at hb
  | cons a rest ih =>
    intro fs b hb
    rw [download_blobs]
    rcases List.mem_cons.mp hb with rfl | hmem
    · apply List.mem_append_left
      unfold download_blob
      by_cases ha : fsHas fs (pathName b.1)
      · simp [ha]
      · simp [ha]
    · exact List.mem_append_right _ (ih _ b hmem)

/-- C4: when the exact object `file_stem + ".tif"` is absent from the
bucket, `download_blob_if_exists` falls back to listing the objects
whose names share the stem as a prefix (the listing prefix
`Path(file_name).stem` is exactly `file_stem`); when that listing is
nonempty every listed part is transferred; when it is empty the function
logs the not-found error, writes nothing to the local directory, and
returns — it is total, so the caller's task-removal proceeds
regardless. -/
theorem c4_fallback_to_parts_else_nonfatal (file_stem : String) (bucket : Bucket)
    (fs : LocalFS) (ow : Bool) (hne : file_stem.data ≠ [])
    (habs : bucket.blobExists (file_stem ++ ".tif") = false) :
    pathStem (file_stem ++ ".tif") = file_stem
    ∧ (bucket.listBlobs file_stem = [] →
        download_blob_if_exists file_stem bucket fs ow
          = (fs, [.warnCheckParts (file_stem ++ ".tif"),
                  .errNotFound (file_stem ++ ".tif")]))
    ∧ (∀ b ∈ bucket.listBlobs file_stem,
        GcsEvent.transfer (pathName b.1)
          ∈ (download_blob_if_exists file_stem bucket fs ow).2) := by
  have hstem := pathStem_append_tif file_stem hne
  refine ⟨hstem, ?_, ?_⟩
  · intro hempty
    unfold download_blob_if_exists
    simp [habs, hstem, hempty]
  · intro b hb
    unfold download_blob_if_exists
    have hnonempty : (bucket.listBlobs file_stem).isEmpty = false := by
      cases h' : bucket.listBlobs file_stem with
      | nil => rw [h'] at hb; simp at hb
      | cons _ _ => rfl
    simp only [habs, Bool.false_eq_true, if_false, hstem, hnonempty]
    exact List.mem_cons_of_mem _ (transfer_mem_download_blobs _ fs b hb)

/-- C4 witness: with the exact object `esa_worldcover.tif` absent, a
bucket holding two split parts yields a transfer of each part, and an
empty bucket yields only the logged error with the local directory
unchanged. -/
theorem c4_fallback_to_parts_else_nonfatal_witness :
    pathStem ("esa_worldcover" ++ ".tif") = "esa_worldcover"
    ∧ ((Bucket.mk []).listBlobs "esa_worldcover" = [] →
        download_blob_if_exists "esa_worldcover" (Bucket.mk []) [] true
          = ([], [.warnCheckParts ("esa_worldcover" ++ ".tif"),
                  .errNotFound ("esa_worldcover" ++ ".tif")]))
    ∧ (∀ b ∈ (Bucket.mk []).listBlobs "esa_worldcover",
        GcsEvent.transfer (pathName b.1)
          ∈ (download_blob_if_exists "esa_worldcover" (Bucket.mk []) [] true).2) :=
  c4_fallback_to_parts_else_nonfatal "esa_worldcover" (Bucket.mk []) [] true
    (by decide) (by decide)

/-- C7: with overwrite disabled, a remote object that exists and whose
file is already present locally is skipped: the local directory is
returned byte-identical and no transfer event occurs, so a second
invocation moves zero additional object bytes. -/
theorem c7_no_overwrite_skips_download (file_stem : String) (bucket : Bucket)
    (fs : LocalFS) (hex : bucket.blobExists (file_stem ++ ".tif") = true)
    (hloc : fsHas fs (file_stem ++ ".tif") = true) :
    download_blob_if_exists file_stem bucket fs false
      = (fs, [.infoSkip (file_stem ++ ".tif")])
    ∧ ∀ n, GcsEvent.transfer n ∉ (download_blob_if_exists file_stem bucket fs false).2 := by
  have h1 : download_blob_if_exists file_stem bucket fs false
      = (fs, [.infoSkip (file_stem ++ ".tif")]) := by
    unfold download_blob_if_exists
    simp [hex, hloc]
  exact ⟨h1, fun n => by rw [h1]; simp⟩

/-- C7 witness: a one-object bucket and a matching one-file local
directory with overwrite off produce only the skip line. -/
theorem c7_no_overwrite_skips_download_witness :
    download_blob_if_exists "modis_ndvi" (Bucket.mk [("modis_ndvi.tif", [7, 7])])
        [("modis_ndvi.tif", [7, 7])] false
      = ([("modis_ndvi.tif", [7, 7])], [.infoSkip ("modis_ndvi" ++ ".tif")])
    ∧ ∀ n, GcsEvent.transfer n
        ∉ (download_blob_if_exists "modis_ndvi" (Bucket.mk [("modis_ndvi.tif", [7, 7])])
            [("modis_ndvi.tif", [7, 7])] false).2 :=
  c7_no_overwrite_skips_download "modis_ndvi" _ _ (by decide) (by decide)

/-- C5: exporting a single-image collection whose image has exactly the
bands `["a", "b"]` with `flatten=True` produces exactly two export
tasks, one per band, each using the band name as both the task
description and the output file-name prefix; outside dry-run each task
is started. -/
theorem c5_flatten_exports_one_task_per_band (img : GEEImage) (p : ExportParams)
    (dry : Bool) (h : img.bands = ["a", "b"]) :
    (export_collection [img] p true dry).length = 2
    ∧ (export_collection [img] p true dry).map (·.description) = ["a", "b"]
    ∧ (export_collection [img] p true dry).map (·.fileNamePrefix) = ["a", "b"]
    ∧ (dry = false →
        ∀ t ∈ export_collection [img] p true dry, t.started = true) := by
  refine ⟨?_, ?_, ?_, ?_⟩ <;>
    simp [export_collection, h, exportImage, GEEImage.select]

/-- C5 witness: the concrete two-band image. -/
theorem c5_flatten_exports_one_task_per_band_witness :
    (export_collection [⟨["a", "b"]⟩] {} true false).length = 2
    ∧ (export_collection [⟨["a", "b"]⟩] {} true false).map (·.description)
        = ["a", "b"]
    ∧ (export_collection [⟨["a", "b"]⟩] {} true false).map (·.fileNamePrefix)
        = ["a", "b"]
    ∧ (false = false →
        ∀ t ∈ export_collection [⟨["a", "b"]⟩] {} true false, t.started = true) :=
  c5_flatten_exports_one_task_per_band ⟨["a", "b"]⟩ {} false rfl

/-- C8: constructing `ExportParams` with a target other than the two
recognized destinations yields the `ValueError` at construction — the
constructor is pure, so nothing is submitted and no network activity
occurs — while `"gcs"` and `"gdrive"` construct successfully. -/
theorem c8_invalid_target_raises_at_construction :
    (∀ (crs : String) (scale : Nat) (target folder : String) (nodata : Option Int),
      target ≠ "gcs" → target ≠ "gdrive" →
      mkExportParams crs scale target folder nodata
        = .error "Invalid target. Use 'gcs' or 'gdrive'.")
    ∧ (∀ (crs : String) (scale : Nat) (folder : String) (nodata : Option Int),
      mkExportParams crs scale "gcs" folder nodata
          = .ok ⟨crs, scale, "gcs", folder, nodata⟩
        ∧ mkExportParams crs scale "gdrive" folder nodata
          = .ok ⟨crs, scale, "gdrive", folder, nodata⟩) := by
  refine ⟨fun crs scale target folder nodata h1 h2 => ?_,
    fun crs scale folder nodata => ⟨?_, ?_⟩⟩
  · simp [mkExportParams, h1, h2]
  · simp [mkExportParams]
  · simp [mkExportParams]

/-- C8 witness: `target="s3"` is rejected at construction. -/
theorem c8_invalid_target_raises_at_construction_witness :
    mkExportParams "EPSG:4326" 1000 "s3" "gee_exports" none
      = .error "Invalid target. Use 'gcs' or 'gdrive'." :=
  c8_invalid_target_raises_at_construction.1 "EPSG:4326" 1000 "s3" "gee_exports"
    none (by decide) (by decide)

/-! ## Lemmas on the plain-HTTP downloader -/

theorem fsGet_fsWrite (fs : LocalFS) (n : String) (c : Bytes) :
    fsGet (fsWrite fs n c) n = some c := by
  unfold fsGet fsWrite fsUnlink
  induction fs with
  | nil => simp
  | cons a rest ih =>
    by_cases ha : a.1 = n
    · simp [ha]
    · simp [ha]

/-- C10: `download_file` opens (creates or truncates) the destination
before issuing the HTTP request, so when the request raises, the raise
propagates and a zero-byte file is left at the destination — whatever
content the path held before is gone. -/
theorem c10_failed_request_truncates_destination (net : Network) (url : String)
    (fs : LocalFS) (e : String) (h : net url = .error e) :
    (download_file net url fs).2 = .error e
    ∧ fsGet (download_file net url fs).1 (pathName url) = some [] := by
  unfold download_file
  rw [h]
  exact ⟨rfl, fsGet_fsWrite fs (pathName url) []⟩

/-- C10 witness: a timed-out request for `.../CHELSA_bio1.zip` leaves the
pre-existing two-byte `CHELSA_bio1.zip` as a zero-byte file and
propagates the error. -/
theorem c10_failed_request_truncates_destination_witness :
    (download_file (fun _ => .error "ReadTimeout")
        "https://example.org/climate/CHELSA_bio1.zip"
        [("CHELSA_bio1.zip", [1, 2])]).2 = .error "ReadTimeout"
    ∧ fsGet (download_file (fun _ => .error "ReadTimeout")
        "https://example.org/climate/CHELSA_bio1.zip"
        [("CHELSA_bio1.zip", [1, 2])]).1
        (pathName "https://example.org/climate/CHELSA_bio1.zip") = some [] :=
  c10_failed_request_truncates_destination (fun _ => .error "ReadTimeout")
    "https://example.org/climate/CHELSA_bio1.zip" [("CHELSA_bio1.zip", [1, 2])]
    "ReadTimeout" rfl

/-! ## Lemmas on the multipart merge -/

theorem mem_foldl_erase (l : List String) : ∀ d : List String, d.Nodup →
    ∀ a, (a ∈ l.foldl (fun acc f => acc.erase f) d ↔ a ∈ d ∧ a ∉ l) := by
  induction l with
  | nil => intro d _ a; simp
  | cons b l ih =>
    intro d hd a
    simp only [List.foldl_cons]
    rw [ih (d.erase b) (hd.erase b) a, List.Nodup.mem_erase_iff hd,
      List.mem_cons]
    tauto

theorem dirWrite_nodup (dir : List String) (n : String) (hnd : dir.Nodup) :
    (dirWrite dir n).Nodup := by
  unfold dirWrite
  by_cases h : n ∈ dir
  · simpa [h] using hnd
  · simp [h, List.nodup_append, hnd]

/-- C6: round-trip of the multipart merge.  On a directory holding
exactly the parts `P00000_1.tif` and `P00000_2.tif`,
`check_multipart_files` detects the single prefix `P`, and
`merge_multipart_files` for that prefix leaves exactly the merged
`P.tif` behind: both original parts are merged (in sorted order) and
unlinked. -/
theorem c6_multipart_round_trip :
    check_multipart_files ["P00000_1.tif", "P00000_2.tif"] = some ["P"]
    ∧ (merge_multipart_files ["P00000_1.tif", "P00000_2.tif"] ["P"]).1 = ["P.tif"]
    ∧ "P00000_1.tif" ∉ (merge_multipart_files ["P00000_1.tif", "P00000_2.tif"] ["P"]).1
    ∧ "P00000_2.tif" ∉ (merge_multipart_files ["P00000_1.tif", "P00000_2.tif"] ["P"]).1
    ∧ (merge_multipart_files ["P00000_1.tif", "P00000_2.tif"] ["P"]).2
        = [.mergeRasters ["P00000_1.tif", "P00000_2.tif"] "P.tif"] := by
  decide

/-- C9: `merge_multipart_files` globs `{prefix}*` into a fixed list
before `merge_rasters` writes `{prefix}.tif`, then unlinks every file of
that list.  Hence when no `P.tif` existed beforehand the fresh merged
file survives the deletion loop; but when `P.tif` already existed (e.g.
on a re-run) it matches the glob, becomes a merge input, and is unlinked
with the rest — no merged output remains on disk. -/
theorem c9_rerun_unlinks_merged_output (dir : List String) (pfx : String)
    (hnd : dir.Nodup) :
    ((pfx ++ ".tif") ∉ dir → (pfx ++ ".tif") ∈ (merge_multipart_files dir [pfx]).1)
    ∧ ((pfx ++ ".tif") ∈ dir →
        (pfx ++ ".tif") ∉ (merge_multipart_files dir [pfx]).1
        ∧ ∃ inputs,
            (merge_multipart_files dir [pfx]).2
              = [.mergeRasters inputs (pfx ++ ".tif")]
            ∧ (pfx ++ ".tif") ∈ inputs
            ∧ ∀ f ∈ inputs, f ∉ (merge_multipart_files dir [pfx]).1) := by
  have hout : strStartsWith pfx (pfx ++ ".tif") = true := strStartsWith_append pfx ".tif"
  have hnd1 : (dirWrite dir (pfx ++ ".tif")).Nodup := dirWrite_nodup dir _ hnd
  have hres1 : (merge_multipart_files dir [pfx]).1 = (mergeOnePrefix dir pfx).1 := by
    simp [merge_multipart_files]
  have hres2 : (merge_multipart_files dir [pfx]).2 = (mergeOnePrefix dir pfx).2 := by
    simp [merge_multipart_files]
  have hmem : ∀ a, a ∈ (mergeOnePrefix dir pfx).1 ↔
      a ∈ dirWrite dir (pfx ++ ".tif") ∧ ¬ (a ∈ dir ∧ strStartsWith pfx a = true) := by
    intro a
    simp only [mergeOnePrefix]
    rw [mem_foldl_erase _ _ hnd1 a]
    simp [List.mem_insertionSort, List.mem_filter]
  constructor
  · intro hnotin
    rw [hres1, hmem]
    exact ⟨by simp [dirWrite, hnotin], fun hc => hnotin hc.1⟩
  · intro hin
    refine ⟨?_, ?_⟩
    · rw [hres1, hmem]
      rintro ⟨_, hc⟩
      exact hc ⟨hin, hout⟩
    · refine ⟨List.insertionSort (fun a b => strLe a b = true)
          (dir.filter (fun f => strStartsWith pfx f)), ?_, ?_, ?_⟩
      · rw [hres2]
        rfl
      · rw [List.mem_insertionSort, List.mem_filter]
        exact ⟨hin, hout⟩
      · intro f hf
        rw [hres1, hmem]
        rintro ⟨_, hc⟩
        rw [List.mem_insertionSort, List.mem_filter] at hf
        exact hc ⟨hf.1, hf.2⟩

/-- C9 witness: on a re-run directory already holding `P.tif` beside the
parts, the merged output is consumed as an input and unlinked; on a
fresh directory without `P.tif` it survives. -/
theorem c9_rerun_unlinks_merged_output_witness :
    ("P" ++ ".tif") ∈ ["P00000_1.tif", "P00000_2.tif", "P.tif"]
    ∧ ("P" ++ ".tif")
        ∉ (merge_multipart_files ["P00000_1.tif", "P00000_2.tif", "P.tif"] ["P"]).1
    ∧ ("P" ++ ".tif") ∈ (merge_multipart_files ["P00000_1.tif", "P00000_2.tif"] ["P"]).1 := by
  have hrerun := (c9_rerun_unlinks_merged_output
    ["P00000_1.tif", "P00000_2.tif", "P.tif"] "P" (by decide)).2 (by decide)
  have hfresh := (c9_rerun_unlinks_merged_output
    ["P00000_1.tif", "P00000_2.tif"] "P" (by decide)).1 (by decide)
  exact ⟨by decide, hrerun.1, hfresh⟩

end Panops
